import Mathlib

/-!
Verification of the PCC tender-notice scraper (src/main.py) against its
natural-language specification.  The Python functions are shallowly embedded
as executable Lean definitions operating on `String` / `List Char`; regular
expressions used by the source are embedded as explicit character scanners
implementing the same replacement semantics on the inputs the program feeds
them.
-/

namespace Scraper

/-- Whitespace class used by Python's `str.strip` / `\s` on the scraper's
inputs: space, tab, newline, carriage return, vertical tab, form feed. -/
def isWs (c : Char) : Bool :=
  c = ' ' || c = '\t' || c = '\n' || c = '\r' || c = '\x0b' || c = '\x0c'

/-- `str.strip()` on a list of characters. -/
def trimChars (cs : List Char) : List Char :=
  ((cs.dropWhile isWs).reverse.dropWhile isWs).reverse

/-- `str.split('\n')` on a list of characters. -/
def splitNl : List Char → List (List Char)
  | [] => [[]]
  | c :: rest =>
    match splitNl rest with
    | [] => [[c]]
    | h :: t => if c = '\n' then [] :: h :: t else (c :: h) :: t

/-- ASCII letter, the class `[a-zA-Z]`. -/
def isAlphaChar (c : Char) : Bool :=
  ('a' ≤ c && c ≤ 'z') || ('A' ≤ c && c ≤ 'Z')

/-- Character class `[A-Za-z0-9\-_]` of the identifier regex. -/
def isIdChar (c : Char) : Bool :=
  ('A' ≤ c && c ≤ 'Z') || ('a' ≤ c && c ≤ 'z') || ('0' ≤ c && c ≤ '9') ||
    c = '-' || c = '_'

/-- Full match of the identifier regex `^[A-Za-z0-9\-_]{3,30}$`. -/
def idMatch (cs : List Char) : Bool :=
  decide (3 ≤ cs.length) && decide (cs.length ≤ 30) && cs.all isIdChar

/-- `re.search(r'[一-鿿]', s)`: the string contains a CJK ideograph. -/
def hasCJK (cs : List Char) : Bool :=
  cs.any (fun c => decide (0x4e00 ≤ c.toNat) && decide (c.toNat ≤ 0x9fff))

/-- Does `needle` occur at the head of the second list? -/
def leadMatch : List Char → List Char → Bool
  | [], _ => true
  | _ :: _, [] => false
  | a :: as, b :: bs => a == b && leadMatch as bs

/-- Python's substring test `needle in hay`. -/
def hasSub (needle : List Char) : List Char → Bool
  | [] => leadMatch needle []
  | c :: rest => leadMatch needle (c :: rest) || hasSub needle rest

/-- `re.sub(r'<[^>]+>', '\n', s)`: each HTML tag becomes a newline
(fuel-indexed scanner; the fuel is always sufficient at the call site). -/
def tagSubGo : Nat → List Char → List Char
  | 0, rest => rest
  | _ + 1, [] => []
  | fuel + 1, c :: rest =>
    if c = '<' then
      let body := rest.takeWhile (fun x => x ≠ '>')
      match rest.drop body.length with
      | '>' :: rest2 =>
        if body.isEmpty then c :: tagSubGo fuel rest
        else '\n' :: tagSubGo fuel rest2
      | _ => c :: tagSubGo fuel rest
    else c :: tagSubGo fuel rest

/-- `re.sub(r'<[^>]+>', '\n', s)`. -/
def tagSub (cs : List Char) : List Char := tagSubGo (cs.length + 1) cs

/-- `re.sub(r'&[a-zA-Z]+;', ' ', s)`: HTML entity fragments become spaces. -/
def entSubGo : Nat → List Char → List Char
  | 0, rest => rest
  | _ + 1, [] => []
  | fuel + 1, c :: rest =>
    if c = '&' then
      let body := rest.takeWhile isAlphaChar
      match rest.drop body.length with
      | ';' :: rest2 =>
        if body.isEmpty then c :: entSubGo fuel rest
        else ' ' :: entSubGo fuel rest2
      | _ => c :: entSubGo fuel rest
    else c :: entSubGo fuel rest

/-- `re.sub(r'&[a-zA-Z]+;', ' ', s)`. -/
def entSub (cs : List Char) : List Char := entSubGo (cs.length + 1) cs

/-- `re.sub(r'\([^)]*\)', '', s)`: parenthesized groups are removed. -/
def parenSubGo : Nat → List Char → List Char
  | 0, rest => rest
  | _ + 1, [] => []
  | fuel + 1, c :: rest =>
    if c = '(' then
      let body := rest.takeWhile (fun x => x ≠ ')')
      match rest.drop body.length with
      | ')' :: rest2 => parenSubGo fuel rest2
      | _ => c :: parenSubGo fuel rest
    else c :: parenSubGo fuel rest

/-- `re.sub(r'\([^)]*\)', '', s)`. -/
def parenSub (cs : List Char) : List Char := parenSubGo (cs.length + 1) cs

/-- `re.sub(r'\s+', ' ', s)`: each maximal whitespace run becomes one space. -/
def wsCollapseGo : Nat → List Char → List Char
  | 0, rest => rest
  | _ + 1, [] => []
  | fuel + 1, c :: rest =>
    if isWs c then
      let run := rest.takeWhile isWs
      ' ' :: wsCollapseGo fuel (rest.drop run.length)
    else c :: wsCollapseGo fuel rest

/-- `re.sub(r'\s+', ' ', s)`. -/
def wsCollapse (cs : List Char) : List Char := wsCollapseGo (cs.length + 1) cs

/-- Test for the correction/amendment markers
`"(更正公告)" in s or "(變更公告)" in s`. -/
def hasMarker (cs : List Char) : Bool :=
  hasSub "(更正公告)".toList cs || hasSub "(變更公告)".toList cs

/-- `' '.join(parts)`. -/
def joinSp (ls : List (List Char)) : List Char := List.intercalate [' '] ls

/-- `re.sub(r'\([^)]*\)', '', line).strip()` — the cleaned form of a line. -/
def cleanOf (l : List Char) : List Char := trimChars (parenSub l)

/-- The single-line identifier test of the source:
`re.match(r'^[A-Za-z0-9\-_]{3,30}$', s) and len(s) <= 30`. -/
def idLenOk (l : List Char) : Bool := idMatch l && decide (l.length ≤ 30)

/-- The multi-line identifier test of the source: identifier regex, length
bound 30, and no CJK ideograph. -/
def looksLikeId (l : List Char) : Bool := idLenOk l && !hasCJK l

/-- `[line.strip() for line in s.split('\n') if line.strip()]`. -/
def linesOf (cs : List Char) : List (List Char) :=
  ((splitNl cs).map trimChars).filter (fun l => !l.isEmpty)

/-- The scan loop of `improved_parse_tender_info`'s final branch: thread the
`found_number` accumulator through the lines, collecting `name_parts`. -/
def scanLines (found : List Char) : List (List Char) → List Char × List (List Char)
  | [] => (found, [])
  | line :: rest =>
    let clean := cleanOf line
    if found.isEmpty && looksLikeId clean then
      scanLines clean rest
    else
      let res := scanLines found rest
      if trimChars line ≠ clean then (res.1, line :: res.2)
      else if found.isEmpty ∨ trimChars line ≠ clean then (res.1, line :: res.2)
      else (res.1, res.2)

/-- Embedding of `PCCWebScraper.improved_parse_tender_info`
(src/main.py, lines 216-295). -/
def improved_parse_tender_info (cell_content : String) : String × String :=
  if cell_content = "" then ("", "")
  else
    let stripped := tagSub cell_content.toList
    let lines := linesOf stripped
    match lines with
    | [] => ("", "")
    | [single_line] =>
      if idLenOk single_line then (String.mk single_line, "")
      else if hasMarker single_line then
        let clean_line := cleanOf single_line
        if !clean_line.isEmpty && idMatch clean_line then
          (String.mk clean_line, "(更正公告)")
        else ("", String.mk single_line)
      else ("", String.mk single_line)
    | first_line :: remaining_lines =>
      if hasMarker first_line then
        let clean_first := cleanOf first_line
        if !clean_first.isEmpty && idMatch clean_first then
          if !remaining_lines.isEmpty then
            (String.mk clean_first, String.mk (joinSp remaining_lines))
          else (String.mk clean_first, "(更正公告)")
        else ("", String.mk (joinSp (first_line :: remaining_lines)))
      else if looksLikeId first_line then
        (String.mk first_line,
          if !remaining_lines.isEmpty then String.mk (joinSp remaining_lines) else "")
      else
        let res := scanLines [] (first_line :: remaining_lines)
        (String.mk res.1,
          if !res.2.isEmpty then String.mk (joinSp res.2) else "")

/-- Embedding of `PCCWebScraper.clean_text` (src/main.py, lines 208-214):
entity fragments become spaces, then the text is stripped and internal
whitespace runs are collapsed. -/
def clean_text (s : String) : String :=
  if s = "" then ""
  else String.mk (wsCollapse (trimChars (entSub s.toList)))

/-- `int` on a run of decimal digits (most significant first). -/
def parseDigits (cs : List Char) : Nat :=
  cs.foldl (fun a c => a * 10 + (c.toNat - 48)) 0

/-- Embedding of `PCCWebScraper.parse_budget_amount`
(src/main.py, lines 377-387). -/
def parse_budget_amount (budget_str : String) : Option Nat :=
  if budget_str = "" ∨ budget_str = "未定" ∨ budget_str = "依契約辦理" ∨
      budget_str = "不公開" then none
  else
    let clean_str := budget_str.toList.filter Char.isDigit
    if !clean_str.isEmpty then some (parseDigits clean_str) else none

/-- Decimal digit `d < 10` as a character. -/
def digitChar (d : Nat) : Char :=
  match d with
  | 0 => '0' | 1 => '1' | 2 => '2' | 3 => '3' | 4 => '4'
  | 5 => '5' | 6 => '6' | 7 => '7' | 8 => '8' | _ => '9'

/-- Modelled from the spec: the decimal representation of a non-negative
integer (Python's `str` on the `int` returned by `parse_budget_amount`;
the conversion itself lives outside src/main.py). -/
def natRepr (n : Nat) : String :=
  if n = 0 then "0" else String.mk (((Nat.digits 10 n).reverse).map digitChar)

/-- One `<td>` cell of a listing row, as the HTML layer hands it to the
parser: `get_text()`, `get_text('\n')`, and the `href` of its first link. -/
structure Cell where
  text : String
  textNl : String
  href : Option String
deriving DecidableEq, Repr

/-- One `<tr>` of the data table. -/
structure Row where
  tds : List Cell
deriving DecidableEq, Repr

/-- The located data table (its `find_all('tr')` result). -/
structure Table where
  rows : List Row
deriving DecidableEq, Repr

/-- The parsed HTML document, restricted to what the table locator reads:
the table with id `tpam` and the table with class `tb_01`, when present. -/
structure Document where
  tableById : Option Table
  tableByClass : Option Table
deriving DecidableEq, Repr

/-- `soup.find('table', {'id': 'tpam'}) or soup.find('table', {'class': 'tb_01'})`
(src/main.py, line 302). -/
def locate (d : Document) : Option Table :=
  match d.tableById with
  | some t => some t
  | none => d.tableByClass

/-- One parsed tender record, with the source's field names
(src/main.py, lines 348-365). -/
structure Record where
  «項次» : String
  «機關名稱» : String
  «標案編號» : String
  «標案名稱» : String
  «傳輸次數» : String
  «招標方式» : String
  «採購性質» : String
  «公告日期» : String
  «截止投標» : String
  «預算金額» : String
  «預算金額_數字» : Option Nat
  «網址» : String
  «爬取日期» : String
  «關鍵字» : String
  «debug_原始標案資訊» : String
deriving DecidableEq, Repr, Inhabited

/-- Substring split `s.split(needle)` for a non-empty needle, on characters
(fuel-indexed; the fuel is always sufficient at the call site). -/
def splitSubGo (needle : List Char) : Nat → List Char → List Char → List (List Char)
  | 0, acc, rest => [acc.reverse ++ rest]
  | _ + 1, acc, [] => [acc.reverse]
  | fuel + 1, acc, c :: rest =>
    if leadMatch needle (c :: rest) then
      acc.reverse :: splitSubGo needle fuel [] ((c :: rest).drop needle.length)
    else splitSubGo needle fuel (c :: acc) rest

/-- Python's `s.split(needle)` for a non-empty needle. -/
def splitSub (needle hay : List Char) : List (List Char) :=
  splitSubGo needle (hay.length + 1) [] hay

/-- The detail-URL construction of `parse_html_content`
(src/main.py, lines 333-339). -/
def detailUrl (href : Option String) : String :=
  match href with
  | none => ""
  | some h =>
    if hasSub "pk=".toList h.toList then
      let pk_val :=
        (splitSub "&".toList ((splitSub "pk=".toList h.toList).getLastD [])).headD []
      "https://web.pcc.gov.tw/tps/QueryTender/query/searchTenderDetail?pkPmsMain=" ++
        String.mk pk_val
    else ""

/-- Cell access `cols[i]` (always in bounds in the source's loop). -/
def getCell (tds : List Cell) (i : Nat) : Cell :=
  (tds.get? i).getD ⟨"", "", none⟩

/-- `str.strip()` on a `String`. -/
def stripStr (s : String) : String := String.mk (trimChars s.toList)

/-- The body of `parse_html_content`'s row loop (src/main.py, lines 312-367):
produce the record for one row, or `none` when the validity check skips it. -/
def parse_row (today keyword : String) (row : Row) : Option Record :=
  let cols := row.tds
  if cols.length < 9 then none
  else
    let «項次» := clean_text (getCell cols 0).text
    let «機關名稱» := clean_text (getCell cols 1).text
    let «標案資訊_text» := stripStr (getCell cols 2).textNl
    let parsed := improved_parse_tender_info «標案資訊_text»
    let «標案編號» := parsed.1
    let «標案名稱» := parsed.2
    let «預算金額» := clean_text (getCell cols 8).text
    let «預算金額_數字» := parse_budget_amount «預算金額»
    if «機關名稱» = "" ∨ («標案編號» = "" ∧ «標案名稱» = "") then none
    else
      some
        { «項次» := «項次»
          «機關名稱» := «機關名稱»
          «標案編號» := «標案編號»
          «標案名稱» := «標案名稱»
          «傳輸次數» := clean_text (getCell cols 3).text
          «招標方式» := clean_text (getCell cols 4).text
          «採購性質» := clean_text (getCell cols 5).text
          «公告日期» := clean_text (getCell cols 6).text
          «截止投標» := clean_text (getCell cols 7).text
          «預算金額» := «預算金額»
          «預算金額_數字» := «預算金額_數字»
          «網址» := detailUrl (getCell cols 2).href
          «爬取日期» := today
          «關鍵字» := keyword
          «debug_原始標案資訊» :=
            if 100 < «標案資訊_text».length then «標案資訊_text».take 100 ++ "..."
            else «標案資訊_text» }

/-- Embedding of `PCCWebScraper.parse_html_content`
(src/main.py, lines 297-375). -/
def parse_html_content (today : String) (doc : Document) (keyword : String) :
    List Record :=
  match locate doc with
  | none => []
  | some table =>
    let data_rows := table.rows.filter (fun r => 9 ≤ r.tds.length)
    data_rows.filterMap (parse_row today keyword)

/-- The filter dictionary handed to `apply_filters`: each key is optional,
and Python treats a present-but-falsy value (empty string, zero) exactly
like an absent key. -/
structure Filters where
  tender_type : Option String
  min_budget : Option Int
  agency_filter : Option String
deriving DecidableEq, Repr

/-- The minimum-budget predicate of `apply_filters` (src/main.py, lines
397-400): `r.get('預算金額_數字') and r['預算金額_數字'] >= min_budget`.
Python truthiness makes `None` and `0` fail the conjunction outright. -/
def passes_min_budget (m : Int) (b : Option Nat) : Bool :=
  match b with
  | none => false
  | some v => decide (v ≠ 0) && decide (m ≤ (v : Int))

/-- Embedding of `PCCWebScraper.apply_filters` (src/main.py, lines 389-407). -/
def apply_filters (results : List Record) (filters : Filters) : List Record :=
  let fr1 :=
    match filters.tender_type with
    | some t =>
      if t ≠ "" then results.filter (fun r => hasSub t.toList r.«招標方式».toList)
      else results
    | none => results
  let fr2 :=
    match filters.min_budget with
    | some m =>
      if m ≠ 0 then fr1.filter (fun r => passes_min_budget m r.«預算金額_數字»)
      else fr1
    | none => fr1
  match filters.agency_filter with
  | some a =>
    if a ≠ "" then fr2.filter (fun r => hasSub a.toList r.«機關名稱».toList)
    else fr2
  | none => fr2

/-- The identity key of the deduplication stage (src/main.py, line 426). -/
def recordKey (r : Record) : String :=
  r.«機關名稱» ++ "|" ++ r.«標案編號» ++ "|" ++ r.«標案名稱»

/-- The deduplication loop at the end of `scrape_multiple_keywords`
(src/main.py, lines 422-431), with the `seen` set threaded explicitly. -/
def dedupe (seen : List String) : List Record → List Record
  | [] => []
  | r :: rs =>
    if recordKey r ∈ seen then dedupe seen rs
    else r :: dedupe (recordKey r :: seen) rs

/-- Outcome of one HTTP GET as observed by the retry loop: a status code
with a body, or a raised exception. -/
inductive FetchOutcome where
  | status (code : Nat) (body : String)
  | exn (msg : String)
deriving DecidableEq, Repr

/-- The log of one attempt of the retry loop: the pacing sleep issued before
the GET (if any) and the backoff sleep issued after a failed GET before the
next attempt (`none` when the loop returns instead). -/
structure AttemptLog where
  preSleep : Option Nat
  postSleep : Option Nat
deriving DecidableEq, Repr

/-- Soft-failure markers looked for in a 200 body (src/main.py, line 161). -/
def softFailure (body : String) : Bool :=
  hasSub "系統錯誤訊息".toList body.toList ||
    hasSub "使用者無權限操作此功能".toList body.toList

/-- The retry loop of `make_request_with_retry` (src/main.py, lines
141-183): `get n` is the outcome of the GET issued on attempt `n`, `rc` the
global request counter before the attempt.  Returns the result body together
with the per-attempt sleep log. -/
def retryGo (get : Nat → FetchOutcome) (max_retries : Nat) (attempt rc : Nat) :
    String × List AttemptLog :=
  if _h : attempt < max_retries then
    let rc' := rc + 1
    let pre : Option Nat := if 1 < rc' then some (min (2 + attempt) 5) else none
    match get attempt with
    | .exn _ =>
      if attempt < max_retries - 1 then
        let res := retryGo get max_retries (attempt + 1) rc'
        (res.1, ⟨pre, some (5 + attempt * 2)⟩ :: res.2)
      else ("", [⟨pre, none⟩])
    | .status code body =>
      if code = 403 then
        if attempt < max_retries - 1 then
          let res := retryGo get max_retries (attempt + 1) rc'
          (res.1, ⟨pre, some 10⟩ :: res.2)
        else ("", [⟨pre, none⟩])
      else if code = 200 then
        if softFailure body then
          if attempt < max_retries - 1 then
            let res := retryGo get max_retries (attempt + 1) rc'
            (res.1, ⟨pre, some (5 + attempt * 2)⟩ :: res.2)
          else ("", [⟨pre, none⟩])
        else (body, [⟨pre, none⟩])
      else
        if attempt < max_retries - 1 then
          let res := retryGo get max_retries (attempt + 1) rc'
          (res.1, ⟨pre, some (3 + attempt)⟩ :: res.2)
        else ("", [⟨pre, none⟩])
  else ("", [])
termination_by max_retries - attempt
decreasing_by all_goals omega

/-- Embedding of `PCCWebScraper.make_request_with_retry`: body returned to
the caller plus the attempt log (one entry per GET actually issued). -/
def make_request_with_retry (get : Nat → FetchOutcome) (max_retries rc : Nat) :
    String × List AttemptLog :=
  retryGo get max_retries 0 rc

/-- Total delay slept between the GETs of successive attempts: the backoff
sleep of each attempt plus the pacing sleep of the next. -/
def gapsOf : List AttemptLog → List Nat
  | a :: b :: rest => (a.postSleep.getD 0 + b.preSleep.getD 0) :: gapsOf (b :: rest)
  | _ => []

/-- The environment the orchestrator runs against: the retry-level fetch
result for a URL (`""` on terminal failure), the HTML parser producing the
document the table locator inspects, and today's date string. -/
structure Env where
  fetchRes : String → String
  soupOf : String → Document
  today : String

/-- Query-URL construction of `scrape_by_keyword` (src/main.py, lines
189-197); percent-encoding of the parameter values is left abstract. -/
def build_url (keyword start_date end_date : String) (page_size : Nat) : String :=
  "https://web.pcc.gov.tw/prkms/tender/common/basic/readTenderBasic?pageSize=" ++
    toString page_size ++ "&tenderStartDate=" ++ start_date ++
    "&tenderEndDate=" ++ end_date ++ "&tenderName=" ++ keyword ++
    "&dateType=isDate"

/-- Embedding of `PCCWebScraper.scrape_by_keyword`
(src/main.py, lines 185-206). -/
def scrape_by_keyword (env : Env) (keyword start_date end_date : String)
    (page_size : Nat) : List Record :=
  let html := env.fetchRes (build_url keyword start_date end_date page_size)
  if html = "" then []
  else parse_html_content env.today (env.soupOf html) keyword

/-- Embedding of `PCCWebScraper.scrape_multiple_keywords`
(src/main.py, lines 409-431): concatenate the per-keyword results, apply the
optional filters, then deduplicate. -/
def scrape_multiple_keywords (env : Env) (keywords : List String)
    (start_date end_date : String) (page_size : Nat) (filters : Option Filters) :
    List Record :=
  let all_results := (keywords.map
    (fun k => scrape_by_keyword env k start_date end_date page_size)).flatten
  let filtered :=
    match filters with
    | some f => apply_filters all_results f
    | none => all_results
  dedupe [] filtered

/-- Modelled from the spec (amended claim C2): the parenthetical-stripped
form of the first line whose stripped form matches the identifier shape,
or empty when no line does. -/
def specFirstId (ls : List (List Char)) : List Char :=
  match ls.find? (fun l => looksLikeId (cleanOf l)) with
  | some l => cleanOf l
  | none => []

/-- Modelled from the spec (amended claim C2): the title lines are all lines
before the identifier line, followed by those lines after it whose
parenthetical-stripped form differs from the line itself; all in original
order, kept in uncleaned form.  When no line matches, all lines. -/
def specTitleLines (ls : List (List Char)) : List (List Char) :=
  ls.takeWhile (fun l => !looksLikeId (cleanOf l)) ++
    ((ls.dropWhile (fun l => !looksLikeId (cleanOf l))).tail).filter
      (fun l => decide (trimChars l ≠ cleanOf l))

/-- Modelled from the spec (claim C8): the conjunction of the individually
active filter predicates — a present-but-falsy value (empty string, zero)
is inactive, exactly as Python truthiness makes it in `apply_filters`. -/
def passes_filters (f : Filters) (r : Record) : Bool :=
  (match f.tender_type with
   | some t => if t ≠ "" then hasSub t.toList r.«招標方式».toList else true
   | none => true) &&
  (match f.min_budget with
   | some m => if m ≠ 0 then passes_min_budget m r.«預算金額_數字» else true
   | none => true) &&
  (match f.agency_filter with
   | some a => if a ≠ "" then hasSub a.toList r.«機關名稱».toList else true
   | none => true)

/-- A concrete record with a parsed budget, used to instantiate the filter
theorems. -/
def sampleBudgetRecord : Record := { (default : Record) with «預算金額_數字» := some 5 }

/-- A concrete environment whose fetches always fail terminally. -/
def sampleEnvFail : Env := ⟨fun _ => "", fun _ => ⟨none, none⟩, "2025/01/01"⟩

/-- A concrete listing row used to instantiate the parsing theorems. -/
def sampleRow : Row :=
  ⟨[⟨"1", "1", none⟩, ⟨"測試機關", "測試機關", none⟩,
    ⟨"114BB0013 測試工程", "114BB0013\n測試工程", some "x?pk=AB12&y=1"⟩,
    ⟨"1", "1", none⟩, ⟨"公開招標", "公開招標", none⟩,
    ⟨"工程類", "工程類", none⟩, ⟨"114/01/01", "114/01/01", none⟩,
    ⟨"114/01/15", "114/01/15", none⟩, ⟨"1,000元", "1,000元", none⟩]⟩

/-- A concrete document holding `sampleRow` in the id-located table. -/
def sampleDoc : Document := ⟨some ⟨[sampleRow]⟩, none⟩

lemma isEmpty_false_of_ne_nil {α : Type} {l : List α} (h : l ≠ []) :
    l.isEmpty = false := by
  cases l with
  | nil => exact absurd rfl h
  | cons a as => rfl

lemma scanLines_found (found : List Char) (h : found ≠ []) (ls : List (List Char)) :
    scanLines found ls =
      (found, ls.filter (fun l => decide (trimChars l ≠ cleanOf l))) := by
  induction ls with
  | nil => rfl
  | cons line rest ih =>
    have hfe : found.isEmpty = false := isEmpty_false_of_ne_nil h
    by_cases hc : trimChars line ≠ cleanOf line
    · simp [scanLines, hfe, ih, List.filter_cons, hc]
    · simp [scanLines, hfe, ih, List.filter_cons, hc]

lemma looksLikeId_ne_nil {l : List Char} (h : looksLikeId l = true) : l ≠ [] := by
  intro hnil
  subst hnil
  simp [looksLikeId, idLenOk, idMatch] at h

lemma scanLines_nil (ls : List (List Char)) :
    scanLines [] ls = (specFirstId ls, specTitleLines ls) := by
  induction ls with
  | nil => rfl
  | cons line rest ih =>
    by_cases hid : looksLikeId (cleanOf line) = true
    · have hne : cleanOf line ≠ [] := looksLikeId_ne_nil hid
      simp [scanLines, hid, scanLines_found _ hne, specFirstId, specTitleLines,
        List.find?, List.takeWhile, List.dropWhile]
    · have hid' : looksLikeId (cleanOf line) = false := by
        simpa using hid
      by_cases hc : trimChars line ≠ cleanOf line
      · simp [scanLines, hid', ih, specFirstId, specTitleLines,
          List.find?, List.takeWhile, List.dropWhile, hc]
      · simp [scanLines, hid', ih, specFirstId, specTitleLines,
          List.find?, List.takeWhile, List.dropWhile, hc]

lemma linesOf_empty : linesOf (tagSub ("" : String).toList) = [] := by decide

/-- Claim C1: the disambiguator returns exactly the spec's outputs on the
five literal scenarios. -/
theorem claim_C1_scenarios :
    improved_parse_tender_info "114BB0013" = ("114BB0013", "") ∧
    improved_parse_tender_info "114BB0013\n桃源區梅山地區環境整體營造工程" =
      ("114BB0013", "桃源區梅山地區環境整體營造工程") ∧
    improved_parse_tender_info "114BB0013 (更正公告)\n桃源區梅山地區環境整體營造工程" =
      ("114BB0013", "桃源區梅山地區環境整體營造工程") ∧
    improved_parse_tender_info "桃源區梅山地區環境整體營造工程" =
      ("", "桃源區梅山地區環境整體營造工程") ∧
    improved_parse_tender_info "" = ("", "") :=
  ⟨by decide, by decide, by decide, by decide, by decide⟩

/-- Claim C3 counterexample: on the single line `114BB0013 (更正公告)` —
which does not match the identifier shape — the code does not return the
whole line as title with empty identifier: it extracts the identifier and
returns the literal marker as the title. -/
theorem claim_C3_counterexample :
    improved_parse_tender_info "114BB0013 (更正公告)" = ("114BB0013", "(更正公告)") ∧
    improved_parse_tender_info "114BB0013 (更正公告)" ≠
      ("", "114BB0013 (更正公告)") := by
  refine ⟨by decide, by decide⟩

/-- Claim C3 (amended): a one-line cell yields `(line, "")` when the line
matches the identifier shape (letters/digits/hyphen/underscore, length
between 3 and 30); otherwise, if the line contains a correction/amendment
marker and removing parentheticals leaves a non-empty identifier-shaped
token, it yields that token with the literal title `(更正公告)`; otherwise
it yields `("", line)`. -/
theorem claim_C3_amended (content : String) (l : List Char)
    (hl : linesOf (tagSub content.toList) = [l]) :
    improved_parse_tender_info content =
      (if idLenOk l then (String.mk l, "")
       else if hasMarker l then
         (if !(cleanOf l).isEmpty && idMatch (cleanOf l) then
           (String.mk (cleanOf l), "(更正公告)")
          else ("", String.mk l))
       else ("", String.mk l)) := by
  have hne : content ≠ "" := by
    intro h
    rw [h] at hl
    rw [linesOf_empty] at hl
    exact List.noConfusion hl
  rw [improved_parse_tender_info, if_neg hne]
  dsimp only
  rw [hl]

/-- Claim C3 witness: the amended form applied to a concrete one-line cell. -/
theorem claim_C3_witness :
    improved_parse_tender_info "114BB0013" = ("114BB0013", "") := by
  rw [claim_C3_amended "114BB0013" "114BB0013".toList (by decide)]
  decide

/-- Claim C2 counterexample: a multi-line cell whose first line is not
identifier shaped; the unannotated line after the identifier line is
dropped from the title, not concatenated into it. -/
theorem claim_C2_counterexample :
    improved_parse_tender_info "中文甲\nABC123\n中文乙" = ("ABC123", "中文甲") ∧
    improved_parse_tender_info "中文甲\nABC123\n中文乙" ≠
      ("ABC123", "中文甲 中文乙") := by
  refine ⟨by decide, by decide⟩

/-- Claim C2 (amended): for a multi-line cell whose first line contains no
correction/amendment marker and does not match the identifier shape, the
identifier is the parenthetical-stripped form of the first line whose
stripped form matches the identifier shape (empty if none), and the title
concatenates, in original order, every line before the identifier line
together with those lines after it that were changed by parenthetical
stripping (kept unstripped); unannotated lines after the identifier line are
dropped.  When no line matches, all lines form the title. -/
theorem claim_C2_amended (content : String) (l0 l1 : List Char)
    (rest : List (List Char))
    (hl : linesOf (tagSub content.toList) = l0 :: l1 :: rest)
    (hm : hasMarker l0 = false)
    (hid : looksLikeId l0 = false) :
    improved_parse_tender_info content =
      (String.mk (specFirstId (l0 :: l1 :: rest)),
        String.mk (joinSp (specTitleLines (l0 :: l1 :: rest)))) := by
  have hne : content ≠ "" := by
    intro h
    rw [h] at hl
    rw [linesOf_empty] at hl
    exact List.noConfusion hl
  rw [improved_parse_tender_info, if_neg hne]
  dsimp only
  rw [hl]
  simp only [hm, hid, Bool.false_eq_true, if_false]
  rw [scanLines_nil]
  by_cases hempty : specTitleLines (l0 :: l1 :: rest) = []
  · simp [hempty, joinSp, List.intercalate]
  · simp [isEmpty_false_of_ne_nil hempty]

/-- Claim C2 witness: the amended form applied to a concrete two-line cell. -/
theorem claim_C2_witness :
    improved_parse_tender_info "中文甲\nABC123" = ("ABC123", "中文甲") := by
  rw [claim_C2_amended "中文甲\nABC123" "中文甲".toList "ABC123".toList []
    (by decide) (by decide) (by decide)]
  decide

lemma parse_row_valid {today keyword : String} {row : Row} {r : Record}
    (h : parse_row today keyword row = some r) :
    r.«機關名稱» ≠ "" ∧ (r.«標案編號» ≠ "" ∨ r.«標案名稱» ≠ "") := by
  simp only [parse_row] at h
  split at h
  · exact Option.noConfusion h
  · split at h
    · exact Option.noConfusion h
    · rename_i hc
      injection h with h'
      subst h'
      push_neg at hc
      refine ⟨hc.1, ?_⟩
      by_cases hb :
        (improved_parse_tender_info (stripStr (getCell row.tds 2).textNl)).1 = ""
      · exact Or.inr (hc.2 hb)
      · exact Or.inl hb

/-- Claim C4: every record emitted by `parse_html_content` has a non-empty
agency field, and at least one of the tender identifier and the tender title
is non-empty; rows violating this are skipped. -/
theorem claim_C4_record_validity (today : String) (doc : Document)
    (keyword : String) (r : Record)
    (hr : r ∈ parse_html_content today doc keyword) :
    r.«機關名稱» ≠ "" ∧ (r.«標案編號» ≠ "" ∨ r.«標案名稱» ≠ "") := by
  unfold parse_html_content at hr
  cases hloc : locate doc with
  | none =>
    rw [hloc] at hr
    simp at hr
  | some table =>
    rw [hloc] at hr
    dsimp only at hr
    rw [List.mem_filterMap] at hr
    obtain ⟨row, _, hrow⟩ := hr
    exact parse_row_valid hrow

/-- Claim C4 witness: the invariant holds of the record parsed from the
concrete sample document. -/
theorem claim_C4_witness :
    ((parse_html_content "2025/01/01" sampleDoc "測試").headD default).«機關名稱» ≠ "" ∧
      (((parse_html_content "2025/01/01" sampleDoc "測試").headD default).«標案編號» ≠ "" ∨
       ((parse_html_content "2025/01/01" sampleDoc "測試").headD default).«標案名稱» ≠ "") :=
  claim_C4_record_validity "2025/01/01" sampleDoc "測試" _ (by decide)

lemma find?_cons_true {A : Type} (p : A → Bool) (a : A) (l : List A)
    (h : p a = true) : List.find? p (a :: l) = some a := by
  simp [List.find?_cons, h]

lemma find?_cons_false {A : Type} (p : A → Bool) (a : A) (l : List A)
    (h : p a = false) : List.find? p (a :: l) = List.find? p l := by
  simp [List.find?_cons, h]

lemma dedupe_sublist (seen : List String) (l : List Record) :
    (dedupe seen l).Sublist l := by
  induction l generalizing seen with
  | nil => simp [dedupe]
  | cons r rs ih =>
    by_cases h : recordKey r ∈ seen
    · simp only [dedupe, if_pos h]
      exact (ih seen).cons r
    · simp only [dedupe, if_neg h]
      exact (ih (recordKey r :: seen)).cons₂ r

lemma mem_dedupe_key_not_seen {seen : List String} {l : List Record}
    {x : Record} (hx : x ∈ dedupe seen l) : recordKey x ∉ seen := by
  induction l generalizing seen with
  | nil => simp [dedupe] at hx
  | cons r rs ih =>
    by_cases h : recordKey r ∈ seen
    · rw [dedupe, if_pos h] at hx
      exact ih hx
    · rw [dedupe, if_neg h] at hx
      rcases List.mem_cons.mp hx with rfl | hx'
      · exact h
      · intro hm
        exact ih hx' (List.mem_cons_of_mem _ hm)

lemma dedupe_pairwise (seen : List String) (l : List Record) :
    (dedupe seen l).Pairwise (fun a b => recordKey a ≠ recordKey b) := by
  induction l generalizing seen with
  | nil => simp [dedupe]
  | cons r rs ih =>
    by_cases h : recordKey r ∈ seen
    · rw [dedupe, if_pos h]
      exact ih seen
    · rw [dedupe, if_neg h]
      refine List.Pairwise.cons ?_ (ih (recordKey r :: seen))
      intro b hb he
      exact mem_dedupe_key_not_seen hb (he ▸ List.mem_cons_self _ _)

lemma dedupe_eq_self {l : List Record}
    (h1 : l.Pairwise (fun a b => recordKey a ≠ recordKey b))
    {seen : List String} (h2 : ∀ x ∈ l, recordKey x ∉ seen) :
    dedupe seen l = l := by
  induction l generalizing seen with
  | nil => rfl
  | cons r rs ih =>
    have hr : recordKey r ∉ seen := h2 r (List.mem_cons_self _ _)
    rw [dedupe, if_neg hr]
    congr 1
    refine ih (List.Pairwise.of_cons h1) ?_
    intro x hx hmem
    rcases List.mem_cons.mp hmem with he | hseen
    · exact (List.pairwise_cons.mp h1).1 x hx he.symm
    · exact h2 x (List.mem_cons_of_mem _ hx) hseen

lemma dedupe_find? {seen : List String} {l : List Record} {x : Record}
    (hx : x ∈ dedupe seen l) :
    l.find? (fun y => recordKey y == recordKey x) = some x := by
  induction l generalizing seen with
  | nil => simp [dedupe] at hx
  | cons r rs ih =>
    by_cases h : recordKey r ∈ seen
    · rw [dedupe, if_pos h] at hx
      have hne : (recordKey r == recordKey x) = false := by
        rw [beq_eq_false_iff_ne]
        intro he
        exact mem_dedupe_key_not_seen hx (he ▸ h)
      rw [find?_cons_false (fun y => recordKey y == recordKey x) r rs hne]
      exact ih hx
    · rw [dedupe, if_neg h] at hx
      rcases List.mem_cons.mp hx with rfl | hx'
      · exact find?_cons_true (fun y => recordKey y == recordKey x) x rs
          (beq_self_eq_true _)
      · have hne : (recordKey r == recordKey x) = false := by
          rw [beq_eq_false_iff_ne]
          intro he
          exact mem_dedupe_key_not_seen hx' (he ▸ List.mem_cons_self _ _)
        rw [find?_cons_false (fun y => recordKey y == recordKey x) r rs hne]
        exact ih hx'

lemma dedupe_covers {seen : List String} {l : List Record} {x : Record}
    (hx : x ∈ l) :
    recordKey x ∈ seen ∨ ∃ y ∈ dedupe seen l, recordKey y = recordKey x := by
  induction l generalizing seen with
  | nil => simp at hx
  | cons r rs ih =>
    by_cases h : recordKey r ∈ seen
    · rw [dedupe, if_pos h]
      rcases List.mem_cons.mp hx with rfl | hx'
      · exact Or.inl h
      · exact ih hx'
    · rw [dedupe, if_neg h]
      rcases List.mem_cons.mp hx with rfl | hx'
      · exact Or.inr ⟨x, List.mem_cons_self _ _, rfl⟩
      · rcases @ih (recordKey r :: seen) hx' with hs | ⟨y, hy, hk⟩
        · rcases List.mem_cons.mp hs with he | hs'
          · exact Or.inr ⟨r, List.mem_cons_self _ _, he.symm⟩
          · exact Or.inl hs'
        · exact Or.inr ⟨y, List.mem_cons_of_mem _ hy, hk⟩

/-- Claim C5: the deduplication stage keeps, per identity key, only the
first record observed (every kept record is the first of the input with its
key, and every input key is represented), preserves relative order (the
output is a sublist of the input), is idempotent, and never lengthens the
list. -/
theorem claim_C5_dedupe (l : List Record) :
    (dedupe [] l).Sublist l ∧
    (dedupe [] l).length ≤ l.length ∧
    dedupe [] (dedupe [] l) = dedupe [] l ∧
    (∀ r ∈ dedupe [] l, l.find? (fun y => recordKey y == recordKey r) = some r) ∧
    (∀ r ∈ l, ∃ r' ∈ dedupe [] l, recordKey r' = recordKey r) := by
  refine ⟨dedupe_sublist [] l, (dedupe_sublist [] l).length_le, ?_, ?_, ?_⟩
  · exact dedupe_eq_self (dedupe_pairwise [] l) (by simp)
  · intro r hr
    exact dedupe_find? hr
  · intro r hr
    rcases @dedupe_covers [] l r hr with hs | hok
    · simp at hs
    · exact hok

/-- Claim C5 witness: the first-per-key property instantiated on a concrete
one-record list. -/
theorem claim_C5_witness :
    [(default : Record)].find?
      (fun y => recordKey y == recordKey (default : Record)) = some default :=
  (claim_C5_dedupe [default]).2.2.2.1 default (by decide)

lemma retryGo_403_last (get : Nat → FetchOutcome) (rc : Nat) (s : String)
    (h2 : get 2 = FetchOutcome.status 403 s) (hrc : 1 ≤ rc) :
    retryGo get 3 2 rc = ("", [⟨some 4, none⟩]) := by
  rw [retryGo]
  have hlt : (2 : Nat) < 3 := by omega
  rw [dif_pos hlt, h2]
  have h1 : (1 : Nat) < rc + 1 := by omega
  norm_num [h1]

/-- Claim C6: when every attempt receives HTTP 403, the retry loop with
`max_retries = 3` issues exactly 3 attempts, then returns the terminal empty
result (the caller sees no data and no exception), and the total delay slept
between successive attempts strictly increases. -/
theorem claim_C6_retry_403 (get : Nat → FetchOutcome) (rc : Nat)
    (h : ∀ n, ∃ s, get n = FetchOutcome.status 403 s) :
    (make_request_with_retry get 3 rc).1 = "" ∧
    (make_request_with_retry get 3 rc).2.length = 3 ∧
    (gapsOf (make_request_with_retry get 3 rc).2).Chain' (· < ·) := by
  obtain ⟨s0, h0⟩ := h 0
  obtain ⟨s1, h1⟩ := h 1
  obtain ⟨s2, h2⟩ := h 2
  have e2 : retryGo get 3 2 (rc + 1 + 1) = ("", [⟨some 4, none⟩]) :=
    retryGo_403_last get (rc + 1 + 1) s2 h2 (by omega)
  have e1 : retryGo get 3 1 (rc + 1) =
      ("", [⟨some 3, some 10⟩, ⟨some 4, none⟩]) := by
    rw [retryGo]
    have hlt : (1 : Nat) < 3 := by omega
    rw [dif_pos hlt, h1]
    have hrc : (1 : Nat) < rc + 1 + 1 := by omega
    norm_num [e2, hrc]
  have e0 : retryGo get 3 0 rc =
      ("", ⟨if 1 < rc + 1 then some 2 else none, some 10⟩ ::
        [⟨some 3, some 10⟩, ⟨some 4, none⟩]) := by
    rw [retryGo]
    have hlt : (0 : Nat) < 3 := by omega
    rw [dif_pos hlt, h0]
    norm_num [e1]
  unfold make_request_with_retry
  rw [e0]
  refine ⟨rfl, rfl, ?_⟩
  simp [gapsOf]

/-- Claim C6 witness: a concrete always-403 response stream. -/
theorem claim_C6_witness :
    (make_request_with_retry (fun _ => FetchOutcome.status 403 "x") 3 0).1 = "" ∧
    (make_request_with_retry (fun _ => FetchOutcome.status 403 "x") 3 0).2.length = 3 ∧
    (gapsOf (make_request_with_retry
      (fun _ => FetchOutcome.status 403 "x") 3 0).2).Chain' (· < ·) :=
  claim_C6_retry_403 (fun _ => FetchOutcome.status 403 "x") 0 (fun _ => ⟨"x", rfl⟩)

lemma parseDigits_append (cs : List Char) (c : Char) :
    parseDigits (cs ++ [c]) = parseDigits cs * 10 + (c.toNat - 48) := by
  simp [parseDigits, List.foldl_append]

lemma digitChar_toNat {d : Nat} (h : d < 10) : (digitChar d).toNat - 48 = d := by
  interval_cases d <;> rfl

lemma digitChar_isDigit {d : Nat} (h : d < 10) : (digitChar d).isDigit = true := by
  interval_cases d <;> rfl

lemma parseDigits_ofDigits (L : List Nat) (h : ∀ d ∈ L, d < 10) :
    parseDigits (L.reverse.map digitChar) = Nat.ofDigits 10 L := by
  induction L with
  | nil => rfl
  | cons d L ih =>
    rw [List.reverse_cons, List.map_append, List.map_cons, List.map_nil,
      parseDigits_append, ih (fun x hx => h x (List.mem_cons_of_mem _ hx)),
      digitChar_toNat (h d (List.mem_cons_self _ _)), Nat.ofDigits_cons]
    ring

lemma natRepr_toList (n : Nat) :
    (natRepr n).toList =
      if n = 0 then ['0'] else (Nat.digits 10 n).reverse.map digitChar := by
  unfold natRepr
  split
  · rfl
  · rfl

lemma natRepr_all_digits (n : Nat) :
    ∀ c ∈ (natRepr n).toList, c.isDigit = true := by
  rw [natRepr_toList]
  split
  · intro c hc
    rw [List.mem_singleton] at hc
    subst hc
    rfl
  · intro c hc
    rw [List.mem_map] at hc
    obtain ⟨d, hd, rfl⟩ := hc
    exact digitChar_isDigit
      (Nat.digits_lt_base (by norm_num) (List.mem_reverse.mp hd))

lemma natRepr_ne (n : Nat) (s : String) (c : Char) (hc : c ∈ s.toList)
    (hnd : c.isDigit = false) : natRepr n ≠ s := by
  intro he
  have hd := natRepr_all_digits n c (by rw [he]; exact hc)
  rw [hnd] at hd
  exact Bool.noConfusion hd

lemma natRepr_ne_empty (n : Nat) : natRepr n ≠ "" := by
  intro he
  have h := congrArg String.toList he
  rw [natRepr_toList] at h
  split at h
  · exact List.noConfusion h
  · rename_i hn
    simp only [String.toList] at h
    simp at h
    exact (Nat.digits_ne_nil_iff_ne_zero.mpr hn) h

lemma parse_budget_natRepr (n : Nat) :
    parse_budget_amount (natRepr n) = some n := by
  unfold parse_budget_amount
  rw [if_neg]
  · have hall : ∀ c ∈ (natRepr n).toList, Char.isDigit c = true :=
      natRepr_all_digits n
    rw [List.filter_eq_self.mpr hall]
    have hne : (natRepr n).toList ≠ [] := by
      intro he
      exact natRepr_ne_empty n (by
        have hmk : natRepr n = String.mk [] := by
          cases hr : natRepr n with
          | mk data => rw [hr] at he; simp only [String.toList] at he; rw [he]
        simpa using hmk)
    show (if (!(natRepr n).toList.isEmpty) = true
        then some (parseDigits ((natRepr n).toList)) else none) = some n
    rw [isEmpty_false_of_ne_nil hne]
    show some (parseDigits ((natRepr n).toList)) = some n
    congr 1
    rw [natRepr_toList]
    split
    · rename_i h0
      rw [h0]
      rfl
    · rw [parseDigits_ofDigits _
        (fun d hd => Nat.digits_lt_base (by norm_num) hd)]
      exact Nat.ofDigits_digits 10 n
  · push_neg
    refine ⟨natRepr_ne_empty n, ?_, ?_, ?_⟩
    · exact natRepr_ne n "未定" '未' (by decide) (by decide)
    · exact natRepr_ne n "依契約辦理" '依' (by decide) (by decide)
    · exact natRepr_ne n "不公開" '不' (by decide) (by decide)

/-- Claim C7: `parse_budget_amount` is absent on the empty string and on the
three placeholders; on every other string it keeps exactly the digit
characters and parses them as a (non-negative) integer, absent when no digit
remains; and re-parsing the decimal representation of any returned value
yields that value again. -/
theorem claim_C7_parse_budget :
    parse_budget_amount "" = none ∧
    parse_budget_amount "未定" = none ∧
    parse_budget_amount "依契約辦理" = none ∧
    parse_budget_amount "不公開" = none ∧
    (∀ s : String, s ≠ "" → s ≠ "未定" → s ≠ "依契約辦理" → s ≠ "不公開" →
      parse_budget_amount s =
        (if (s.toList.filter Char.isDigit).isEmpty then none
         else some (parseDigits (s.toList.filter Char.isDigit)))) ∧
    (∀ s : String, ∀ v : Nat, parse_budget_amount s = some v →
      parse_budget_amount (natRepr v) = some v) := by
  refine ⟨rfl, rfl, rfl, rfl, ?_, ?_⟩
  · intro s h1 h2 h3 h4
    unfold parse_budget_amount
    rw [if_neg (by push_neg; exact ⟨h1, h2, h3, h4⟩)]
    show (if (!(s.toList.filter Char.isDigit).isEmpty) = true
        then some (parseDigits (s.toList.filter Char.isDigit)) else none) = _
    by_cases he : (s.toList.filter Char.isDigit).isEmpty = true
    · rw [he]
      simp
    · rw [Bool.not_eq_true] at he
      rw [he]
      simp
  · intro s v _
    exact parse_budget_natRepr v

/-- Claim C7 witness: a concrete budget string round-trips through its
decimal representation. -/
theorem claim_C7_witness :
    parse_budget_amount (natRepr 1234) = some 1234 :=
  claim_C7_parse_budget.2.2.2.2.2 "約1,234元" 1234 (by decide)

lemma apply_filters_eq_filter (l : List Record) (f : Filters) :
    apply_filters l f = l.filter (passes_filters f) := by
  obtain ⟨ot, om, oa⟩ := f
  cases ot <;> cases om <;> cases oa <;>
    (simp only [apply_filters]
     first
       | (split_ifs <;>
           (try simp only [List.filter_filter]
            first
              | (symm
                 apply List.filter_eq_self.mpr
                 intro r hr
                 simp_all [passes_filters])
              | (apply List.filter_congr
                 intro r hr
                 simp_all [passes_filters, Bool.and_comm, Bool.and_left_comm,
                   Bool.and_assoc])))
       | (symm
          apply List.filter_eq_self.mpr
          intro r hr
          simp_all [passes_filters]))

/-- Claim C8: a record is in the output of `apply_filters` exactly when it
is an input record passing every individually active predicate, and with no
predicate specified the input list is returned unchanged. -/
theorem claim_C8_filters (l : List Record) (f : Filters) :
    (∀ r : Record, r ∈ apply_filters l f ↔ r ∈ l ∧ passes_filters f r = true) ∧
    (f.tender_type = none → f.min_budget = none → f.agency_filter = none →
      apply_filters l f = l) := by
  constructor
  · intro r
    rw [apply_filters_eq_filter, List.mem_filter]
  · intro h1 h2 h3
    obtain ⟨ot, om, oa⟩ := f
    simp only at h1 h2 h3
    subst h1
    subst h2
    subst h3
    rfl

/-- Claim C8 witness: the all-absent filter bundle passes a concrete record
list unchanged. -/
theorem claim_C8_witness :
    apply_filters [(default : Record)] ⟨none, none, none⟩ = [default] :=
  (claim_C8_filters [default] ⟨none, none, none⟩).2 rfl rfl rfl

/-- Claim C10: with an active minimum-budget predicate, every record kept by
`apply_filters` has a present, non-zero parsed budget — records whose parsed
budget is absent or zero are excluded regardless of the threshold. -/
theorem claim_C10_min_budget_excludes (l : List Record) (f : Filters) (m : Int)
    (hm : f.min_budget = some m) (hm0 : m ≠ 0) (r : Record)
    (hr : r ∈ apply_filters l f) :
    r.«預算金額_數字» ≠ none ∧ r.«預算金額_數字» ≠ some 0 := by
  rw [apply_filters_eq_filter, List.mem_filter] at hr
  have hp := hr.2
  unfold passes_filters at hp
  rw [Bool.and_eq_true, Bool.and_eq_true] at hp
  have hmid := hp.1.2
  rw [hm] at hmid
  simp only [hm0, if_true] at hmid
  rw [if_pos hm0] at hmid
  cases hb : r.«預算金額_數字» with
  | none =>
    rw [hb] at hmid
    simp [passes_min_budget] at hmid
  | some v =>
    rw [hb] at hmid
    simp only [passes_min_budget, Bool.and_eq_true, decide_eq_true_eq] at hmid
    refine ⟨by simp, ?_⟩
    intro he
    injection he with he'
    exact hmid.1 he'

/-- Claim C10 witness: a concrete record with non-zero budget kept by an
active minimum-budget filter. -/
theorem claim_C10_witness :
    sampleBudgetRecord.«預算金額_數字» ≠ none ∧
      sampleBudgetRecord.«預算金額_數字» ≠ some 0 :=
  claim_C10_min_budget_excludes [sampleBudgetRecord] ⟨none, some 1, none⟩ 1
    rfl (by decide) sampleBudgetRecord (by decide)

/-- Claim C9: a terminal fetch failure or a missing data table for one
keyword yields an empty result list for that keyword, and the batch result
is exactly the result of the batch without that keyword — the other keywords
are processed unchanged and no failure aborts the batch. -/
theorem claim_C9_keyword_isolation (env : Env) (k start_date end_date : String)
    (page_size : Nat) (ks1 ks2 : List String) (filters : Option Filters)
    (hfail :
      env.fetchRes (build_url k start_date end_date page_size) = "" ∨
      locate (env.soupOf
        (env.fetchRes (build_url k start_date end_date page_size))) = none) :
    scrape_by_keyword env k start_date end_date page_size = [] ∧
    scrape_multiple_keywords env (ks1 ++ k :: ks2) start_date end_date
        page_size filters =
      scrape_multiple_keywords env (ks1 ++ ks2) start_date end_date
        page_size filters := by
  have hk : scrape_by_keyword env k start_date end_date page_size = [] := by
    unfold scrape_by_keyword
    rcases hfail with h | h
    · rw [h]
      simp
    · by_cases he : env.fetchRes (build_url k start_date end_date page_size) = ""
      · rw [he]
        simp
      · rw [if_neg he]
        unfold parse_html_content
        rw [h]
  refine ⟨hk, ?_⟩
  unfold scrape_multiple_keywords
  rw [List.map_append, List.map_append, List.map_cons, List.flatten_append,
    List.flatten_append, List.flatten_cons, hk, List.nil_append]

/-- Claim C9 witness: a concrete always-failing environment. -/
theorem claim_C9_witness :
    scrape_by_keyword sampleEnvFail "a" "d1" "d2" 1 = [] ∧
    scrape_multiple_keywords sampleEnvFail (["b"] ++ "a" :: []) "d1" "d2" 1 none =
      scrape_multiple_keywords sampleEnvFail (["b"] ++ []) "d1" "d2" 1 none :=
  claim_C9_keyword_isolation sampleEnvFail "a" "d1" "d2" 1 ["b"] [] none
    (Or.inl rfl)

end Scraper
